import Mathlib

/-!
Shallow embedding of the creative-engine job-orchestration layer.

The Python code drives a remote inference pipeline.  Remote calls, the file
system and the clock are modelled as explicit oracles (a `World` record of
functions); every orchestrator function becomes a pure Lean function from the
world and its arguments to a result together with a trace of observable
events (remote calls, sleeps, file writes).  Python exceptions are modelled
with `Except PyErr`; a function that catches all exceptions and returns
`None` is modelled as returning `Option`.
-/

/-- Python exceptions that matter to the orchestration layer.
`httpException` models `fastapi.HTTPException(status_code, detail)`. -/
inductive PyErr where
  | httpException (status : Nat) (detail : String)
  | timeoutErr
  | osError (msg : String)
  | otherErr (msg : String)
deriving DecidableEq

/-- Outcome of one streamed HTTP download (`httpx`): success, a transport
error, or a non-2xx status (`raise_for_status`).  Both failure cases raise
`httpx.HTTPError` in the source. -/
inductive DlOutcome where
  | ok
  | transportErr
  | badStatus
deriving DecidableEq

/-- The dictionary returned by the `image_to_3d` job.  `truthy` is the Python
truthiness of the whole result (`None` / empty dict are falsy); `video` is
the optional "video" entry, with the empty string standing for a falsy
value. -/
structure JobResult where
  truthy : Bool
  video : Option String
deriving DecidableEq

/-- The loop condition `result and "video" in result and result["video"]`
from `process_3d_job`. -/
def hasVideo (r : JobResult) : Bool :=
  r.truthy && (match r.video with
    | some v => v != ""
    | none => false)

/-- Observable events of a pipeline run: synchronous predict calls, the one
asynchronous submit, polls of the submitted job handle, backoff sleeps
(seconds), and local file writes (successful materializations). -/
inductive Event where
  | predict (api : String)
  | submitJob (api : String)
  | pollJob (idx : Nat)
  | sleep (d : Nat)
  | write (path : String)
deriving DecidableEq

/-- Outcome of one invocation of the operation passed to `retry_async`:
either it raises, or it returns a value (whose Python truthiness is judged
by a separate predicate). -/
inductive OpOutcome (α : Type) where
  | throws
  | returns (a : α)
deriving DecidableEq

/-- Events of the generic retry helper: the i-th invocation of the
operation, and the backoff sleeps (seconds). -/
inductive REvent where
  | call (i : Nat)
  | rsleep (d : Nat)
deriving DecidableEq

/-- Body of `retry_async` from `utils/retry.py`: `made` invocations were
already made, `fuel` attempts remain, `delay` is the current backoff.  A
truthy result is returned at once; a falsy result or a raised exception is
followed by a sleep, doubling of the delay, and the next attempt (the sleep
happens even after the final attempt, as in the source). -/
def retryAux {α : Type} (op : Nat → OpOutcome α) (truthy : α → Bool) :
    Nat → Nat → Nat → Option α × List REvent
  | _, 0, _ => (none, [])
  | made, fuel + 1, delay =>
    match op made with
    | OpOutcome.returns a =>
      if truthy a then (some a, [REvent.call made])
      else
        let r := retryAux op truthy (made + 1) fuel (delay * 2)
        (r.1, REvent.call made :: REvent.rsleep delay :: r.2)
    | OpOutcome.throws =>
      let r := retryAux op truthy (made + 1) fuel (delay * 2)
      (r.1, REvent.call made :: REvent.rsleep delay :: r.2)

/-- Model of `retry_async(func, retries, initial_delay, **kwargs)` from
`utils/retry.py`.  The operation is indexed by how many invocations were
already made, so the environment may answer differently per attempt. -/
def retry_async {α : Type} (op : Nat → OpOutcome α) (truthy : α → Bool)
    (retries initial_delay : Nat) : Option α × List REvent :=
  retryAux op truthy 0 retries initial_delay

/-- Attempt `i` of the operation fails in the sense of `retry_async`: it
raises, or it returns a falsy value. -/
def attemptFails {α : Type} (op : Nat → OpOutcome α) (truthy : α → Bool) (i : Nat) : Prop :=
  op i = OpOutcome.throws ∨ ∃ a, op i = OpOutcome.returns a ∧ truthy a = false

instance {α : Type} [DecidableEq α] (op : Nat → OpOutcome α) (truthy : α → Bool) (i : Nat) :
    Decidable (attemptFails op truthy i) := by
  unfold attemptFails
  cases h : op i with
  | throws => exact isTrue (Or.inl rfl)
  | returns a =>
    cases ht : truthy a with
    | false =>
      exact isTrue (Or.inr ⟨a, rfl, ht⟩)
    | true =>
      refine isFalse ?_
      rintro (hc | ⟨b, hb, hbt⟩)
      · exact absurd hc (by simp)
      · rw [OpOutcome.returns.injEq] at hb
        rw [hb] at ht
        rw [ht] at hbt
        exact absurd hbt (by simp)

/-- Number of operation invocations recorded in a retry trace. -/
def isCallEv : REvent → Bool
  | REvent.call _ => true
  | REvent.rsleep _ => false

def callCount : List REvent → Nat
  | [] => 0
  | REvent.call _ :: rest => callCount rest + 1
  | REvent.rsleep _ :: rest => callCount rest

/-- Backoff delays recorded in a retry trace, in order. -/
def sleepDelays : List REvent → List Nat
  | [] => []
  | REvent.call _ :: rest => sleepDelays rest
  | REvent.rsleep d :: rest => d :: sleepDelays rest

/-- The delay used before the (i+1)-th retry of the generic helper, when the
initial delay is `d`: the source doubles the delay after every failed
attempt. -/
def helperDelaySeq (d : Nat) : Nat → Nat
  | 0 => d
  | i + 1 => helperDelaySeq d i * 2

/-- The delay used in the i-th iteration of the video-polling loop of
`process_3d_job`: it starts at 10 and the source updates it with
`delay = min(delay + 5, 80)`. -/
def pollDelaySeq : Nat → Nat
  | 0 => 10
  | i + 1 => min (pollDelaySeq i + 5) 80

/-- Model of `wait_for_file` from `services/processing.py`, with the file-system
check abstracted as `check i` = (file exists and has non-zero size at the
i-th inspection).  Returns the boolean result and the list of sleeps
performed.  The function is total: it never raises. -/
def waitAux (check : Nat → Bool) : Nat → Nat → Nat → Bool × List Nat
  | _, 0, _ => (false, [])
  | att, fuel + 1, d =>
    if check att then (true, [])
    else
      let r := waitAux check (att + 1) fuel (d * 2)
      (r.1, d :: r.2)

def wait_for_file (check : Nat → Bool) (retries delay : Nat) : Bool × List Nat :=
  waitAux check 0 retries delay

/-- The URL test of `fetch_or_copy_file`:
`source.startswith("http://") or source.startswith("https://")`, stated on
the character list (the first 7 resp. 8 characters are compared, which is
exactly what `str.startswith` does) so that it evaluates inside the
kernel. -/
def isUrlSource (source : String) : Bool :=
  (source.data.take 7 == "http://".data) || (source.data.take 8 == "https://".data)

/-- The error raised by `download_file` when `httpx` reports a transport
error or a non-2xx status (the spec calls it DownloadError). -/
def downloadFailedErr : PyErr := PyErr.httpException 500 "Failed to download file."

/-- The error raised by the copy branch of `fetch_or_copy_file` when the
copy fails, e.g. because the source does not exist (the spec calls it
CopyError). -/
def copyFailedErr : PyErr := PyErr.httpException 500 "Failed to copy file."

/-- Model of `download_file` from `services/file_handler.py`: any `httpx.HTTPError`
(transport error or bad status) is turned into `downloadFailedErr`. -/
def download_file (dl : String → DlOutcome) (url : String) : Except PyErr Unit :=
  match dl url with
  | DlOutcome.ok => Except.ok ()
  | DlOutcome.transportErr => Except.error downloadFailedErr
  | DlOutcome.badStatus => Except.error downloadFailedErr

/-- Which branch `fetch_or_copy_file` took. -/
inductive FetchPath where
  | download
  | copy
deriving DecidableEq

/-- Model of `fetch_or_copy_file(source, destination)` from
`services/file_handler.py`.  `dl` gives the outcome of a download of a given
source; `cp` tells whether copying a given local source succeeds (`false`
covers a nonexistent source, whose exception the source code converts to
`copyFailedErr`).  The destination does not influence the outcome. -/
def fetch_or_copy_file (dl : String → DlOutcome) (cp : String → Bool)
    (source : String) (_destination : String) : Except PyErr Unit × FetchPath :=
  if isUrlSource source then
    (download_file dl source, FetchPath.download)
  else
    (if cp source then Except.ok () else Except.error copyFailedErr, FetchPath.copy)

/-- The fatal error of `process_3d_job` when polling never yields a video. -/
def noVideoErr : PyErr := PyErr.httpException 500 "3D conversion failed: No video returned."

/-- The polling loop of `process_3d_job` after the initial
`job.result(timeout=600)`: `made` polls already happened, `fuel` loop
iterations remain, `delay` is the current backoff and `r` the most recent
result.  Each iteration checks the result, sleeps, updates the delay with
`min (delay + 5) 80` and polls again; an exception from a poll propagates
at once.  After the loop the final check raises `noVideoErr` when no video
was ever produced. -/
def pollLoopAux (poll : Nat → Except PyErr JobResult) :
    Nat → Nat → Nat → JobResult → Except PyErr JobResult × List Event
  | _, 0, _, r =>
    if hasVideo r then (Except.ok r, []) else (Except.error noVideoErr, [])
  | made, fuel + 1, delay, r =>
    if hasVideo r then (Except.ok r, [])
    else
      match poll made with
      | Except.error e => (Except.error e, [Event.sleep delay, Event.pollJob made])
      | Except.ok r2 =>
        let rest := pollLoopAux poll (made + 1) fuel (min (delay + 5) 80) r2
        (rest.1, Event.sleep delay :: Event.pollJob made :: rest.2)

/-- The whole polling phase: one initial `job.result(timeout=600)` followed
by the retry loop (`retries = 8`, `delay = 10`). -/
def pollForVideo (poll : Nat → Except PyErr JobResult) :
    Except PyErr JobResult × List Event :=
  match poll 0 with
  | Except.error e => (Except.error e, [Event.pollJob 0])
  | Except.ok r =>
    let rest := pollLoopAux poll 1 8 10 r
    (rest.1, Event.pollJob 0 :: rest.2)

def isPollEvent : Event → Bool
  | Event.pollJob _ => true
  | Event.sleep _ => true
  | _ => false

def isPollCall : Event → Bool
  | Event.pollJob _ => true
  | _ => false

def pollCallCount : List Event → Nat
  | [] => 0
  | Event.pollJob _ :: rest => pollCallCount rest + 1
  | Event.predict _ :: rest => pollCallCount rest
  | Event.submitJob _ :: rest => pollCallCount rest
  | Event.sleep _ :: rest => pollCallCount rest
  | Event.write _ :: rest => pollCallCount rest

/-- Sleep durations recorded in a pipeline trace, in order. -/
def eventSleeps : List Event → List Nat
  | [] => []
  | Event.sleep d :: rest => d :: eventSleeps rest
  | Event.pollJob _ :: rest => eventSleeps rest
  | Event.predict _ :: rest => eventSleeps rest
  | Event.submitJob _ :: rest => eventSleeps rest
  | Event.write _ :: rest => eventSleeps rest

def isWriteEv : Event → Bool
  | Event.write _ => true
  | _ => false

/-- The environment of one model-generation request: the answers of the
remote vendor, the file system and the upload, all as oracles.  Remote calls
that can raise are `Except`-valued; `extractGlb` and `poll` are indexed by
the attempt so that repeated calls may answer differently. -/
structure World where
  imageReady : Nat → Bool
  sessionRes : Except PyErr String
  lambdaRes : Except PyErr String
  poll : Nat → Except PyErr JobResult
  lambda1Res : Except PyErr String
  lambda2Res : Except PyErr String
  lambda3Res : Except PyErr String
  extractGlb : Nat → Except PyErr (Option (String × String))
  extractGaussian : Except PyErr (Option (String × String))
  download : String → DlOutcome
  copyOk : String → Bool
  saveUploadOk : Bool

/-- The operation that `extract_glb_async` hands to `retry_async`: one
`/extract_glb` predict call.  A raised exception is the `throws` outcome
(caught inside the helper); otherwise the returned value is `none` for a
falsy result and `some (path, info)` for the expected pair. -/
def glbOp (w : World) (i : Nat) : OpOutcome (Option (String × String)) :=
  match w.extractGlb i with
  | Except.error _ => OpOutcome.throws
  | Except.ok v => OpOutcome.returns v

/-- Python truthiness of the `/extract_glb` result. -/
def glbTruthy : Option (String × String) → Bool := Option.isSome

/-- The path `DATA_DIR / f"TIMESTAMP_3d_model.glb"` as a string. -/
def glbFile (ts : String) : String := "data/" ++ ts ++ "_3d_model.glb"

/-- The path `DATA_DIR / f"TIMESTAMP_gaussian.glb"` as a string. -/
def gaussianFile (ts : String) : String := "data/" ++ ts ++ "_gaussian.glb"

/-- The path `DATA_DIR / f"TIMESTAMP_uploaded.png"` as a string. -/
def uploadedFile (ts : String) : String := "data/" ++ ts ++ "_uploaded.png"

/-- Retry events of the `/extract_glb` retries, as pipeline events. -/
def toPipelineEvent : REvent → Event
  | REvent.call _ => Event.predict "/extract_glb"
  | REvent.rsleep d => Event.sleep d

/-- Model of `process_3d_job` from `services/processing.py`: validate the image with
`wait_for_file` (3 retries, delay 2), predict `/start_session`, predict
`/lambda`, submit `/image_to_3d`, then poll for a video.  Any exception of
a remote call propagates. -/
def process_3d_job (w : World) (imagePath _timestamp : String) :
    Except PyErr JobResult × List Event :=
  let waitEvs := ((wait_for_file w.imageReady 3 2).2).map Event.sleep
  if (wait_for_file w.imageReady 3 2).1 = false then
    (Except.error (PyErr.httpException 400 ("Image file not found: " ++ imagePath)), waitEvs)
  else
    match w.sessionRes with
    | Except.error e => (Except.error e, waitEvs ++ [Event.predict "/start_session"])
    | Except.ok _ =>
      match w.lambdaRes with
      | Except.error e =>
        (Except.error e, waitEvs ++ [Event.predict "/start_session", Event.predict "/lambda"])
      | Except.ok _ =>
        ((pollForVideo w.poll).1,
          waitEvs ++ [Event.predict "/start_session", Event.predict "/lambda",
            Event.submitJob "/image_to_3d"] ++ (pollForVideo w.poll).2)

/-- Model of `extract_glb_async` from `services/processing.py`: predict `/lambda_1`,
`/lambda_2`, `/lambda_3`, extract the GLB through `retry_async` (3 attempts,
initial delay 5), materialize it to `glbFile ts`, predict
`/extract_gaussian` and materialize its result to `gaussianFile ts`.  The
whole body is wrapped in a catch-all that turns any exception into `none`,
so every failure path returns `none`. -/
def extract_glb_async (w : World) (ts : String) : Option String × List Event :=
  match w.lambda1Res with
  | Except.error _ => (none, [Event.predict "/lambda_1"])
  | Except.ok _ =>
  match w.lambda2Res with
  | Except.error _ => (none, [Event.predict "/lambda_1", Event.predict "/lambda_2"])
  | Except.ok _ =>
  match w.lambda3Res with
  | Except.error _ =>
    (none, [Event.predict "/lambda_1", Event.predict "/lambda_2", Event.predict "/lambda_3"])
  | Except.ok _ =>
    let lamEvs := [Event.predict "/lambda_1", Event.predict "/lambda_2", Event.predict "/lambda_3"]
    let glbEvs := ((retry_async (glbOp w) glbTruthy 3 5).2).map toPipelineEvent
    match (retry_async (glbOp w) glbTruthy 3 5).1 with
    | some (some (glbPath, _)) =>
      match (fetch_or_copy_file w.download w.copyOk glbPath (glbFile ts)).1 with
      | Except.error _ => (none, lamEvs ++ glbEvs)
      | Except.ok _ =>
        match w.extractGaussian with
        | Except.ok (some (gaussPath, _)) =>
          match (fetch_or_copy_file w.download w.copyOk gaussPath (gaussianFile ts)).1 with
          | Except.ok _ =>
            (some (glbFile ts),
              lamEvs ++ glbEvs ++ [Event.write (glbFile ts),
                Event.predict "/extract_gaussian", Event.write (gaussianFile ts)])
          | Except.error _ =>
            (none, lamEvs ++ glbEvs ++ [Event.write (glbFile ts),
              Event.predict "/extract_gaussian"])
        | Except.ok none =>
          (none, lamEvs ++ glbEvs ++ [Event.write (glbFile ts),
            Event.predict "/extract_gaussian"])
        | Except.error _ =>
          (none, lamEvs ++ glbEvs ++ [Event.write (glbFile ts),
            Event.predict "/extract_gaussian"])
    | _ => (none, lamEvs ++ glbEvs)

/-- The error every failing run of `services/model_generator.generate_model`
surfaces to its caller: the bare `except Exception` of that function catches
even the `HTTPException`s raised by `process_3d_job` and by its own
`if not glb_filepath` check, and replaces them with this one. -/
def genericModelErr : PyErr := PyErr.httpException 500 "Error generating GLB model."

/-- Model of `generate_model` from `services/model_generator.py`: save the upload,
run `process_3d_job`, run `extract_glb_async`, raise on a falsy GLB path.
Every exception — including the classified `HTTPException`s from the inner
steps — is caught by the trailing `except Exception` and re-raised as
`genericModelErr`. -/
def generate_model (w : World) (ts : String) : Except PyErr String :=
  if w.saveUploadOk = false then Except.error genericModelErr
  else
    match (process_3d_job w (uploadedFile ts) ts).1 with
    | Except.error _ => Except.error genericModelErr
    | Except.ok _ =>
      match (extract_glb_async w ts).1 with
      | none => Except.error genericModelErr
      | some p => Except.ok p

namespace AppMain

/-- Model of `process_3d_job` from `app/main.py` (the duplicate implementation),
result only: identical control flow to the services version. -/
def process_3d_job (w : World) (imagePath : String) : Except PyErr JobResult :=
  if (wait_for_file w.imageReady 3 2).1 = false then
    Except.error (PyErr.httpException 400 ("Image file not found: " ++ imagePath))
  else
    match w.sessionRes with
    | Except.error e => Except.error e
    | Except.ok _ =>
      match w.lambdaRes with
      | Except.error e => Except.error e
      | Except.ok _ => (pollForVideo w.poll).1

/-- The inline `/extract_glb` retry loop of `app/main.py`: a falsy result
loops again immediately, an exception sleeps (`delay`, doubled) and loops;
after the loop a falsy `glb_result` yields `none`.  Result only: the sleeps
do not affect the returned value. -/
def glbRetryAux (w : World) : Nat → Nat → Nat → Option (String × String)
  | _, 0, _ => none
  | made, fuel + 1, delay =>
    match w.extractGlb made with
    | Except.error _ => glbRetryAux w (made + 1) fuel (delay * 2)
    | Except.ok v => if glbTruthy v then v else glbRetryAux w (made + 1) fuel delay

/-- The inline `if url: download else: shutil.copy` materialization of
`app/main.py`; a failed copy raises an uncaught `OSError` (swallowed later
by the catch-all of `extract_glb_async`). -/
def inlineFetch (w : World) (source : String) : Except PyErr Unit :=
  if isUrlSource source then download_file w.download source
  else if w.copyOk source then Except.ok () else Except.error (PyErr.osError "copy failed")

/-- Model of `extract_glb_async` from `app/main.py`, result only: lambdas 1-3, the
inline GLB retry, GLB materialization, gaussian extraction and
materialization; the catch-all turns every exception into `none`. -/
def extract_glb_async (w : World) (ts : String) : Option String :=
  match w.lambda1Res with
  | Except.error _ => none
  | Except.ok _ =>
  match w.lambda2Res with
  | Except.error _ => none
  | Except.ok _ =>
  match w.lambda3Res with
  | Except.error _ => none
  | Except.ok _ =>
    match glbRetryAux w 0 3 5 with
    | none => none
    | some (glbPath, _) =>
      match inlineFetch w glbPath with
      | Except.error _ => none
      | Except.ok _ =>
        match w.extractGaussian with
        | Except.ok (some (gaussPath, _)) =>
          match inlineFetch w gaussPath with
          | Except.ok _ => some (glbFile ts)
          | Except.error _ => none
        | _ => none

/-- The `POST /generate_model` endpoint of `app/main.py`: unlike the
services variant, it re-raises `HTTPException`s unchanged
(`except HTTPException as http_exc: raise http_exc`) and only wraps other
exceptions into the generic error; a falsy GLB path raises the
distinguishable soft-failure error. -/
def generate_model (w : World) (ts : String) : Except PyErr String :=
  if w.saveUploadOk = false then Except.error genericModelErr
  else
    match process_3d_job w (uploadedFile ts) with
    | Except.error e =>
      match e with
      | PyErr.httpException s d => Except.error (PyErr.httpException s d)
      | _ => Except.error genericModelErr
    | Except.ok _ =>
      match extract_glb_async w ts with
      | none => Except.error (PyErr.httpException 500 "GLB extraction failed.")
      | some p => Except.ok p

end AppMain

/-- A Python value as returned by the background-removal service: a string,
a list, or something else. -/
inductive PyVal where
  | pyStr (s : String)
  | pyList (xs : List PyVal)
  | pyOther

/-- Environment of one sketch request: the flux image generator (prompt to
result path/URL), the background-removal service (local image path to
result), and the materializer oracles. -/
structure SketchWorld where
  flux : String → Except PyErr String
  bg : String → Except PyErr PyVal
  download : String → DlOutcome
  copyOk : String → Bool

/-- Observable events of a sketch run. -/
inductive SketchEvent where
  | fluxCall (prompt : String)
  | bgCall (imagePath : String)
  | write (path : String)
deriving DecidableEq

/-- The `STYLE_DESCRIPTIONS` mapping of `services/sketch_generator.py`. -/
def STYLE_DESCRIPTIONS : String → Option String
  | "Realistic" => some "Detailed textures, lifelike materials."
  | "Low Poly" => some "Simple shapes, flat colors."
  | "Voxel" => some "Blocky, pixel-style (Minecraft look)."
  | "Stylized" => some "Hand-painted, cartoonish, vibrant."
  | "Toon" => some "Bold outlines, cel-shaded."
  | "Sci-Fi" => some "Futuristic, metallic, glowing."
  | "Fantasy" => some "Medieval, magical, ornate."
  | "Wireframe" => some "Raw mesh, technical look."
  | "Clay" => some "Matte, sculpted, no textures."
  | "Metallic" => some "Chrome, gold, shiny surfaces."
  | _ => none

/-- The prompt actually sent to image generation: a known style appends its
description (`f"PROMPT. DESC"`), an unknown or absent style leaves the
prompt unmodified. -/
def updatedPrompt (prompt : String) (style : Option String) : String :=
  match style with
  | none => prompt
  | some st =>
    match STYLE_DESCRIPTIONS st with
    | some desc => prompt ++ ". " ++ desc
    | none => prompt

/-- The error every failing run of `generate_sketch` surfaces: its
catch-all replaces any exception with this `HTTPException`. -/
def sketchErr : PyErr := PyErr.httpException 500 "Error generating image."

/-- `DATA_DIR / f"TIMESTAMP_flux_image.png"` as a string. -/
def fluxImageFile (ts : String) : String := "data/" ++ ts ++ "_flux_image.png"

/-- `DATA_DIR / f"TIMESTAMP_flux_image_bg.png"` as a string. -/
def fluxImageBgFile (ts : String) : String := "data/" ++ ts ++ "_flux_image_bg.png"

/-- Model of `generate_sketch` from `services/sketch_generator.py`: extend the
prompt by the style description, generate the flux image, materialize it,
run background removal on the local image, unwrap a list result to its
first element, require a string, materialize it, and return its local
path.  The catch-all maps every failure to `sketchErr`. -/
def generate_sketch (w : SketchWorld) (ts : String) (prompt : String) (style : Option String) :
    Except PyErr String × List SketchEvent :=
  let up := updatedPrompt prompt style
  match w.flux up with
  | Except.error _ => (Except.error sketchErr, [SketchEvent.fluxCall up])
  | Except.ok imageResult =>
    match (fetch_or_copy_file w.download w.copyOk imageResult (fluxImageFile ts)).1 with
    | Except.error _ => (Except.error sketchErr, [SketchEvent.fluxCall up])
    | Except.ok _ =>
      let evs2 := [SketchEvent.fluxCall up, SketchEvent.write (fluxImageFile ts),
        SketchEvent.bgCall (fluxImageFile ts)]
      match w.bg (fluxImageFile ts) with
      | Except.error _ => (Except.error sketchErr, evs2)
      | Except.ok bgRes0 =>
        match (match bgRes0 with
          | PyVal.pyList xs => xs.head?
          | v => some v) with
        | none => (Except.error sketchErr, evs2)
        | some bgRes =>
          match bgRes with
          | PyVal.pyStr s =>
            match (fetch_or_copy_file w.download w.copyOk s (fluxImageBgFile ts)).1 with
            | Except.error _ => (Except.error sketchErr, evs2)
            | Except.ok _ =>
              (Except.ok (fluxImageBgFile ts),
                evs2 ++ [SketchEvent.write (fluxImageBgFile ts)])
          | _ => (Except.error sketchErr, evs2)

/-- A polled result that is truthy but has no video entry. -/
def resNoVideo : JobResult := { truthy := true, video := none }

/-- A polled result carrying a video URL. -/
def resVideo : JobResult := { truthy := true, video := some "https://cdn/video.mp4" }

/-- A run in which every step succeeds: the image is present, the session
and lambdas succeed, the first poll already has a video, GLB and gaussian
extraction return local paths that copy fine. -/
def wOk : World where
  imageReady := fun _ => true
  sessionRes := Except.ok "session"
  lambdaRes := Except.ok "lambda"
  poll := fun _ => Except.ok resVideo
  lambda1Res := Except.ok "l1"
  lambda2Res := Except.ok "l2"
  lambda3Res := Except.ok "l3"
  extractGlb := fun _ => Except.ok (some ("tmp/glb_src.glb", "info"))
  extractGaussian := Except.ok (some ("tmp/gauss_src.glb", "info"))
  download := fun _ => DlOutcome.ok
  copyOk := fun _ => true
  saveUploadOk := true

/-- Like `wOk` but the polled result never carries a video. -/
def wNoVideo : World := { wOk with poll := fun _ => Except.ok resNoVideo }

/-- Like `wOk` but `/extract_glb` always returns a falsy result. -/
def wNoGlb : World := { wOk with extractGlb := fun _ => Except.ok none }

/-- Like `wOk` but `/extract_gaussian` returns a falsy result, so gaussian
extraction fails after the GLB file was already materialized. -/
def wGaussFail : World := { wOk with extractGaussian := Except.ok none }

def swOk : SketchWorld where
  flux := fun _ => Except.ok "https://cdn/flux.png"
  bg := fun _ => Except.ok (PyVal.pyStr "tmp/bg_out.png")
  download := fun _ => DlOutcome.ok
  copyOk := fun _ => true

/-- The trace produced by the polling loop when `i` more iterations each
see a video-less result, the sleeps happen, and the poll of index
`made + i` raises. -/
def pollFailTrace : Nat → Nat → Nat → List Event
  | 0, made, delay => [Event.sleep delay, Event.pollJob made]
  | i + 1, made, delay =>
    Event.sleep delay :: Event.pollJob made :: pollFailTrace i (made + 1) (min (delay + 5) 80)

/-- The full trace of the polling phase when the poll of index `k` raises
after `k` video-less results. -/
def pollErrTrace : Nat → List Event
  | 0 => [Event.pollJob 0]
  | i + 1 => Event.pollJob 0 :: pollFailTrace i 1 10

/-- A poll oracle that times out on its third call (index 2) after two
video-less answers. -/
def pollTimesOutAt2 : Nat → Except PyErr JobResult :=
  fun i => if i = 2 then Except.error PyErr.timeoutErr else Except.ok resNoVideo

/-! ### Lemmas about the generic retry helper -/

theorem helperDelaySeq_shift (d j : Nat) :
    helperDelaySeq (d * 2) j = helperDelaySeq d (j + 1) := by
  induction j with
  | zero => rfl
  | succ j ih => simp [helperDelaySeq, ih]

theorem helperDelaySeq_closed (d i : Nat) : helperDelaySeq d i = d * 2 ^ i := by
  induction i with
  | zero => simp [helperDelaySeq]
  | succ i ih => simp [helperDelaySeq, ih, Nat.pow_succ, Nat.mul_assoc]

theorem pollDelaySeq_closed (i : Nat) : pollDelaySeq i = min (10 + 5 * i) 80 := by
  induction i with
  | zero => simp [pollDelaySeq]
  | succ i ih =>
    rw [pollDelaySeq, ih]
    omega

theorem retryAux_succ_throws {α : Type} {op : Nat → OpOutcome α} {truthy : α → Bool}
    {made : Nat} (fuel delay : Nat) (h : op made = OpOutcome.throws) :
    retryAux op truthy made (fuel + 1) delay
      = ((retryAux op truthy (made + 1) fuel (delay * 2)).1,
         REvent.call made :: REvent.rsleep delay
           :: (retryAux op truthy (made + 1) fuel (delay * 2)).2) := by
  simp [retryAux, h]

theorem retryAux_succ_falsy {α : Type} {op : Nat → OpOutcome α} {truthy : α → Bool}
    {made : Nat} {a : α} (fuel delay : Nat)
    (h : op made = OpOutcome.returns a) (ht : truthy a = false) :
    retryAux op truthy made (fuel + 1) delay
      = ((retryAux op truthy (made + 1) fuel (delay * 2)).1,
         REvent.call made :: REvent.rsleep delay
           :: (retryAux op truthy (made + 1) fuel (delay * 2)).2) := by
  simp [retryAux, h, ht]

theorem retryAux_succ_truthy {α : Type} {op : Nat → OpOutcome α} {truthy : α → Bool}
    {made : Nat} {a : α} (fuel delay : Nat)
    (h : op made = OpOutcome.returns a) (ht : truthy a = true) :
    retryAux op truthy made (fuel + 1) delay = (some a, [REvent.call made]) := by
  simp [retryAux, h, ht]

/-- A failed attempt always contributes the same step to the retry state,
whether it threw or returned a falsy value. -/
theorem retryAux_succ_fails {α : Type} {op : Nat → OpOutcome α} {truthy : α → Bool}
    {made : Nat} (fuel delay : Nat) (h : attemptFails op truthy made) :
    retryAux op truthy made (fuel + 1) delay
      = ((retryAux op truthy (made + 1) fuel (delay * 2)).1,
         REvent.call made :: REvent.rsleep delay
           :: (retryAux op truthy (made + 1) fuel (delay * 2)).2) := by
  rcases h with hthrow | ⟨a, ha, hat⟩
  · exact retryAux_succ_throws fuel delay hthrow
  · exact retryAux_succ_falsy fuel delay ha hat

theorem retryAux_allFail {α : Type} (op : Nat → OpOutcome α) (truthy : α → Bool) :
    ∀ (fuel made delay : Nat),
      (∀ i, made ≤ i → i < made + fuel → attemptFails op truthy i) →
      (retryAux op truthy made fuel delay).1 = none ∧
      callCount (retryAux op truthy made fuel delay).2 = fuel ∧
      sleepDelays (retryAux op truthy made fuel delay).2
        = (List.range fuel).map (helperDelaySeq delay) := by
  intro fuel
  induction fuel with
  | zero => intro made delay _; simp [retryAux, callCount, sleepDelays]
  | succ fuel ih =>
    intro made delay hfail
    have hmade : attemptFails op truthy made := hfail made (Nat.le_refl _) (by omega)
    have hrec := ih (made + 1) (delay * 2) (fun i h1 h2 => hfail i (by omega) (by omega))
    have hrange : (List.range (fuel + 1)).map (helperDelaySeq delay)
        = delay :: (List.range fuel).map (helperDelaySeq (delay * 2)) := by
      rw [List.range_succ_eq_map]
      simp only [List.map_cons, List.map_map]
      have hfun : helperDelaySeq delay ∘ Nat.succ = helperDelaySeq (delay * 2) := by
        funext j
        have := helperDelaySeq_shift delay j
        simp [Function.comp, this]
      rw [hfun]
      rfl
    rw [retryAux_succ_fails fuel delay hmade]
    refine ⟨hrec.1, ?_, ?_⟩
    · simp only [callCount]
      have := hrec.2.1
      omega
    · simp only [sleepDelays]
      rw [hrange, hrec.2.2]

theorem retryAux_firstSuccess {α : Type} (op : Nat → OpOutcome α) (truthy : α → Bool) :
    ∀ (k fuel made delay : Nat) (a : α), k < fuel →
      (∀ j, j < k → attemptFails op truthy (made + j)) →
      op (made + k) = OpOutcome.returns a → truthy a = true →
      (retryAux op truthy made fuel delay).1 = some a ∧
      callCount (retryAux op truthy made fuel delay).2 = k + 1 := by
  intro k
  induction k with
  | zero =>
    intro fuel made delay a hk _ hop hat
    match fuel, hk with
    | fuel + 1, _ =>
      rw [retryAux_succ_truthy fuel delay (by simpa using hop) hat]
      simp [callCount]
  | succ k ih =>
    intro fuel made delay a hk hfail hop hat
    match fuel, hk with
    | fuel + 1, hk =>
      have hmade : attemptFails op truthy made := by
        have := hfail 0 (by omega)
        simpa using this
      rw [retryAux_succ_fails fuel delay hmade]
      have hrec := ih fuel (made + 1) (delay * 2) a (by omega)
        (fun j hj => by
          have := hfail (j + 1) (by omega)
          have harith : made + (j + 1) = made + 1 + j := by omega
          rwa [harith] at this)
        (by rwa [show made + 1 + k = made + (k + 1) by omega])
        hat
      refine ⟨hrec.1, ?_⟩
      simp only [callCount]
      have := hrec.2
      omega

theorem retryAux_some_first {α : Type} (op : Nat → OpOutcome α) (truthy : α → Bool) :
    ∀ (fuel made delay : Nat) (a : α),
      (retryAux op truthy made fuel delay).1 = some a →
      ∃ k, k < fuel ∧ op (made + k) = OpOutcome.returns a ∧ truthy a = true ∧
        ∀ j, j < k → attemptFails op truthy (made + j) := by
  intro fuel
  induction fuel with
  | zero => intro made delay a h; simp [retryAux] at h
  | succ fuel ih =>
    intro made delay a h
    by_cases hmade : attemptFails op truthy made
    · rw [retryAux_succ_fails fuel delay hmade] at h
      rcases ih (made + 1) (delay * 2) a h with ⟨k, hk, hop, hat, hfail⟩
      refine ⟨k + 1, by omega, by rwa [show made + (k + 1) = made + 1 + k by omega], hat, ?_⟩
      intro j hj
      match j, hj with
      | 0, _ => simpa using hmade
      | j + 1, hj =>
        have := hfail j (by omega)
        rwa [show made + 1 + j = made + (j + 1) by omega] at this
    · have hok : ∃ b, op made = OpOutcome.returns b ∧ truthy b = true := by
        rcases hop : op made with _ | b
        · exact absurd (Or.inl hop) hmade
        · rcases ht : truthy b with _ | _
          · exact absurd (Or.inr ⟨b, hop, ht⟩) hmade
          · exact ⟨b, rfl, ht⟩
      rcases hok with ⟨b, hop, hbt⟩
      rw [retryAux_succ_truthy fuel delay hop hbt] at h
      simp only [Option.some.injEq] at h
      subst h
      exact ⟨0, by omega, by simpa using hop, hbt, fun j hj => absurd hj (by omega)⟩

theorem retryAux_congr {α : Type} (op1 op2 : Nat → OpOutcome α) (truthy : α → Bool) :
    ∀ (fuel made delay : Nat),
      (∀ i, made ≤ i → i < made + fuel →
        (attemptFails op1 truthy i ↔ attemptFails op2 truthy i) ∧
        (∀ a, op1 i = OpOutcome.returns a → truthy a = true → op2 i = OpOutcome.returns a)) →
      retryAux op1 truthy made fuel delay = retryAux op2 truthy made fuel delay := by
  intro fuel
  induction fuel with
  | zero => intro made delay _; rfl
  | succ fuel ih =>
    intro made delay hagree
    have hrec := ih (made + 1) (delay * 2) (fun i h1 h2 => hagree i (by omega) (by omega))
    have hmade := hagree made (Nat.le_refl _) (by omega)
    by_cases hf : attemptFails op1 truthy made
    · have hf2 : attemptFails op2 truthy made := hmade.1.mp hf
      rw [retryAux_succ_fails fuel delay hf, retryAux_succ_fails fuel delay hf2, hrec]
    · have hok : ∃ b, op1 made = OpOutcome.returns b ∧ truthy b = true := by
        rcases hop : op1 made with _ | b
        · exact absurd (Or.inl hop) hf
        · rcases ht : truthy b with _ | _
          · exact absurd (Or.inr ⟨b, hop, ht⟩) hf
          · exact ⟨b, rfl, ht⟩
      rcases hok with ⟨b, hop, hbt⟩
      have hop2 : op2 made = OpOutcome.returns b := hmade.2 b hop hbt
      rw [retryAux_succ_truthy fuel delay hop hbt, retryAux_succ_truthy fuel delay hop2 hbt]

theorem retryAux_events_shape {α : Type} (op : Nat → OpOutcome α) (truthy : α → Bool) :
    ∀ (fuel made delay : Nat) (e : REvent),
      e ∈ (retryAux op truthy made fuel delay).2 →
      (∃ i, e = REvent.call i) ∨ (∃ d2, e = REvent.rsleep d2) := by
  intro fuel
  induction fuel with
  | zero => intro made delay e h; simp [retryAux] at h
  | succ fuel ih =>
    intro made delay e h
    by_cases hf : attemptFails op truthy made
    · rw [retryAux_succ_fails fuel delay hf] at h
      simp only [List.mem_cons] at h
      rcases h with h | h | h
      · exact Or.inl ⟨made, h⟩
      · exact Or.inr ⟨delay, h⟩
      · exact ih (made + 1) (delay * 2) e h
    · have hok : ∃ b, op made = OpOutcome.returns b ∧ truthy b = true := by
        rcases hop : op made with _ | b
        · exact absurd (Or.inl hop) hf
        · rcases ht : truthy b with _ | _
          · exact absurd (Or.inr ⟨b, hop, ht⟩) hf
          · exact ⟨b, rfl, ht⟩
      rcases hok with ⟨b, hop, hbt⟩
      rw [retryAux_succ_truthy fuel delay hop hbt] at h
      simp only [List.mem_singleton] at h
      exact Or.inl ⟨made, h⟩

theorem retryAux_some_hasCall {α : Type} (op : Nat → OpOutcome α) (truthy : α → Bool)
    (fuel made delay : Nat) (a : α) (h : (retryAux op truthy made fuel delay).1 = some a) :
    REvent.call made ∈ (retryAux op truthy made fuel delay).2 := by
  match fuel with
  | 0 => simp [retryAux] at h
  | fuel + 1 =>
    by_cases hf : attemptFails op truthy made
    · rw [retryAux_succ_fails fuel delay hf]
      simp
    · have hok : ∃ b, op made = OpOutcome.returns b ∧ truthy b = true := by
        rcases hop : op made with _ | b
        · exact absurd (Or.inl hop) hf
        · rcases ht : truthy b with _ | _
          · exact absurd (Or.inr ⟨b, hop, ht⟩) hf
          · exact ⟨b, rfl, ht⟩
      rcases hok with ⟨b, hop, hbt⟩
      rw [retryAux_succ_truthy fuel delay hop hbt]
      simp

/-! ### Lemmas about the video-polling loop -/

theorem pollLoopAux_succ_video {poll : Nat → Except PyErr JobResult} {r : JobResult}
    (made fuel delay : Nat) (h : hasVideo r = true) :
    pollLoopAux poll made (fuel + 1) delay r = (Except.ok r, []) := by
  simp [pollLoopAux, h]

theorem pollLoopAux_succ_err {poll : Nat → Except PyErr JobResult} {r : JobResult}
    {e : PyErr} (made fuel delay : Nat) (h : hasVideo r = false)
    (hp : poll made = Except.error e) :
    pollLoopAux poll made (fuel + 1) delay r
      = (Except.error e, [Event.sleep delay, Event.pollJob made]) := by
  simp [pollLoopAux, h, hp]

theorem pollLoopAux_succ_ok {poll : Nat → Except PyErr JobResult} {r r2 : JobResult}
    (made fuel delay : Nat) (h : hasVideo r = false) (hp : poll made = Except.ok r2) :
    pollLoopAux poll made (fuel + 1) delay r
      = ((pollLoopAux poll (made + 1) fuel (min (delay + 5) 80) r2).1,
         Event.sleep delay :: Event.pollJob made
           :: (pollLoopAux poll (made + 1) fuel (min (delay + 5) 80) r2).2) := by
  simp [pollLoopAux, h, hp]

theorem pollLoopAux_events_shape (poll : Nat → Except PyErr JobResult) :
    ∀ (fuel made delay : Nat) (r : JobResult) (e : Event),
      e ∈ (pollLoopAux poll made fuel delay r).2 →
      (∃ i, e = Event.pollJob i) ∨ (∃ d2, e = Event.sleep d2) := by
  intro fuel
  induction fuel with
  | zero =>
    intro made delay r e h
    rcases hv : hasVideo r with _ | _ <;> simp [pollLoopAux, hv] at h
  | succ fuel ih =>
    intro made delay r e h
    rcases hv : hasVideo r with _ | _
    · rcases hp : poll made with e2 | r2
      · rw [pollLoopAux_succ_err made fuel delay hv hp] at h
        simp only [List.mem_cons, List.mem_singleton] at h
        rcases h with h | h | h
        · exact Or.inr ⟨delay, h⟩
        · exact Or.inl ⟨made, h⟩
        · simp at h
      · rw [pollLoopAux_succ_ok made fuel delay hv hp] at h
        simp only [List.mem_cons] at h
        rcases h with h | h | h
        · exact Or.inr ⟨delay, h⟩
        · exact Or.inl ⟨made, h⟩
        · exact ih (made + 1) (min (delay + 5) 80) r2 e h
    · rw [pollLoopAux_succ_video made fuel delay hv] at h
      simp at h

theorem pollForVideo_events_shape (poll : Nat → Except PyErr JobResult) :
    (∀ e ∈ (pollForVideo poll).2,
      (∃ i, e = Event.pollJob i) ∨ (∃ d2, e = Event.sleep d2)) ∧
    Event.pollJob 0 ∈ (pollForVideo poll).2 := by
  rcases hp : poll 0 with e2 | r
  · constructor
    · intro e h
      simp only [pollForVideo, hp, List.mem_singleton] at h
      exact Or.inl ⟨0, h⟩
    · simp [pollForVideo, hp]
  · constructor
    · intro e h
      simp only [pollForVideo, hp, List.mem_cons] at h
      rcases h with h | h
      · exact Or.inl ⟨0, h⟩
      · exact pollLoopAux_events_shape poll 8 1 10 r e h
    · simp [pollForVideo, hp]

theorem pollLoopAux_noVideo (poll : Nat → Except PyErr JobResult) :
    ∀ (fuel made delay : Nat) (r : JobResult), hasVideo r = false →
      (∀ j, made ≤ j → j < made + fuel → ∃ r2, poll j = Except.ok r2 ∧ hasVideo r2 = false) →
      (pollLoopAux poll made fuel delay r).1 = Except.error noVideoErr := by
  intro fuel
  induction fuel with
  | zero => intro made delay r hv _; simp [pollLoopAux, hv]
  | succ fuel ih =>
    intro made delay r hv hall
    rcases hall made (Nat.le_refl _) (by omega) with ⟨r2, hp, hv2⟩
    rw [pollLoopAux_succ_ok made fuel delay hv hp]
    exact ih (made + 1) (min (delay + 5) 80) r2 hv2 (fun j h1 h2 => hall j (by omega) (by omega))

theorem pollLoopAux_sleeps (poll : Nat → Except PyErr JobResult) :
    ∀ (fuel made k : Nat) (r : JobResult), hasVideo r = false →
      (∀ j, made ≤ j → j < made + fuel → ∃ r2, poll j = Except.ok r2 ∧ hasVideo r2 = false) →
      eventSleeps (pollLoopAux poll made fuel (pollDelaySeq k) r).2
        = (List.range fuel).map (fun i => pollDelaySeq (k + i)) := by
  intro fuel
  induction fuel with
  | zero => intro made k r hv _; rcases hv2 : hasVideo r with _ | _ <;> simp [pollLoopAux, hv2, eventSleeps]
  | succ fuel ih =>
    intro made k r hv hall
    rcases hall made (Nat.le_refl _) (by omega) with ⟨r2, hp, hv2⟩
    rw [pollLoopAux_succ_ok made fuel (pollDelaySeq k) hv hp]
    simp only [eventSleeps]
    have hstep : min (pollDelaySeq k + 5) 80 = pollDelaySeq (k + 1) := by
      rw [pollDelaySeq]
    rw [hstep, ih (made + 1) (k + 1) r2 hv2 (fun j h1 h2 => hall j (by omega) (by omega))]
    rw [List.range_succ_eq_map]
    simp only [List.map_cons, List.map_map]
    have hfun : ((fun i => pollDelaySeq (k + i)) ∘ Nat.succ) = fun i => pollDelaySeq (k + 1 + i) := by
      funext j
      simp only [Function.comp]
      have : k + Nat.succ j = k + 1 + j := by omega
      rw [this]
    rw [hfun]
    simp

theorem pollFailTrace_count : ∀ (i made delay : Nat),
    pollCallCount (pollFailTrace i made delay) = i + 1 := by
  intro i
  induction i with
  | zero => intro made delay; simp [pollFailTrace, pollCallCount]
  | succ i ih =>
    intro made delay
    simp only [pollFailTrace, pollCallCount]
    rw [ih]

theorem pollLoopAux_err (poll : Nat → Except PyErr JobResult) (e : PyErr) :
    ∀ (i fuel made delay : Nat) (r : JobResult), hasVideo r = false →
      (∀ j, made ≤ j → j < made + i → ∃ r2, poll j = Except.ok r2 ∧ hasVideo r2 = false) →
      poll (made + i) = Except.error e → i < fuel →
      pollLoopAux poll made fuel delay r = (Except.error e, pollFailTrace i made delay) := by
  intro i
  induction i with
  | zero =>
    intro fuel made delay r hv _ herr hlt
    match fuel, hlt with
    | fuel + 1, _ =>
      rw [pollLoopAux_succ_err made fuel delay hv (by simpa using herr)]
      rfl
  | succ i ih =>
    intro fuel made delay r hv hall herr hlt
    match fuel, hlt with
    | fuel + 1, hlt =>
      rcases hall made (Nat.le_refl _) (by omega) with ⟨r2, hp, hv2⟩
      rw [pollLoopAux_succ_ok made fuel delay hv hp]
      have hrec := ih fuel (made + 1) (min (delay + 5) 80) r2 hv2
        (fun j h1 h2 => hall j (by omega) (by omega))
        (by rwa [show made + 1 + i = made + (i + 1) by omega]) (by omega)
      rw [hrec]
      rfl

theorem pollErrTrace_count (k : Nat) : pollCallCount (pollErrTrace k) = k + 1 := by
  match k with
  | 0 => simp [pollErrTrace, pollCallCount]
  | i + 1 =>
    simp only [pollErrTrace, pollCallCount]
    rw [pollFailTrace_count]

theorem pollForVideo_err (poll : Nat → Except PyErr JobResult) (k : Nat) (e : PyErr)
    (hk : k ≤ 8)
    (hfail : ∀ j, j < k → ∃ r, poll j = Except.ok r ∧ hasVideo r = false)
    (herr : poll k = Except.error e) :
    pollForVideo poll = (Except.error e, pollErrTrace k) := by
  match k with
  | 0 => simp [pollForVideo, herr, pollErrTrace]
  | i + 1 =>
    rcases hfail 0 (by omega) with ⟨r, hp0, hv0⟩
    simp only [pollForVideo, hp0]
    have := pollLoopAux_err poll e i 8 1 10 r hv0
      (fun j h1 h2 => hfail j (by omega))
      (by simpa [show 1 + i = i + 1 by omega] using herr) (by omega)
    rw [this]
    rfl

theorem pollForVideo_noVideo (poll : Nat → Except PyErr JobResult)
    (h : ∀ j, j ≤ 8 → ∃ r, poll j = Except.ok r ∧ hasVideo r = false) :
    (pollForVideo poll).1 = Except.error noVideoErr ∧
    eventSleeps (pollForVideo poll).2 = (List.range 8).map pollDelaySeq := by
  rcases h 0 (by omega) with ⟨r, hp0, hv0⟩
  constructor
  · simp only [pollForVideo, hp0]
    exact pollLoopAux_noVideo poll 8 1 10 r hv0 (fun j h1 h2 => h j (by omega))
  · simp only [pollForVideo, hp0, eventSleeps]
    have := pollLoopAux_sleeps poll 8 1 0 r hv0 (fun j h1 h2 => h j (by omega))
    simp only [pollDelaySeq] at this
    rw [this]
    simp

/-! ### Lemmas about wait_for_file and the AppMain inline retry -/

theorem waitAux_allFalse (check : Nat → Bool) (h : ∀ i, check i = false) :
    ∀ (fuel att d : Nat), (waitAux check att fuel d).1 = false := by
  intro fuel
  induction fuel with
  | zero => intro att d; rfl
  | succ fuel ih =>
    intro att d
    simp only [waitAux, h att, Bool.false_eq_true, if_false]
    exact ih (att + 1) (d * 2)

theorem waitAux_firstSuccess (check : Nat → Bool) :
    ∀ (k fuel att d : Nat), k < fuel →
      (∀ j, j < k → check (att + j) = false) → check (att + k) = true →
      (waitAux check att fuel d).1 = true ∧ (waitAux check att fuel d).2.length = k := by
  intro k
  induction k with
  | zero =>
    intro fuel att d hk _ hc
    match fuel, hk with
    | fuel + 1, _ =>
      simp only [Nat.add_zero] at hc
      simp [waitAux, hc]
  | succ k ih =>
    intro fuel att d hk hfail hc
    match fuel, hk with
    | fuel + 1, hk =>
      have h0 : check att = false := by simpa using hfail 0 (by omega)
      simp only [waitAux, h0, Bool.false_eq_true, if_false]
      have hrec := ih fuel (att + 1) (d * 2) (by omega)
        (fun j hj => by
          have := hfail (j + 1) (by omega)
          rwa [show att + (j + 1) = att + 1 + j by omega] at this)
        (by rwa [show att + 1 + k = att + (k + 1) by omega])
      simp only [List.length_cons]
      exact ⟨hrec.1, by rw [hrec.2]⟩

theorem appGlbRetryAux_allFail (w : World) :
    ∀ (fuel made delay : Nat),
      (∀ i, made ≤ i → i < made + fuel → attemptFails (glbOp w) glbTruthy i) →
      AppMain.glbRetryAux w made fuel delay = none := by
  intro fuel
  induction fuel with
  | zero => intro made delay _; rfl
  | succ fuel ih =>
    intro made delay hfail
    have hmade : attemptFails (glbOp w) glbTruthy made := hfail made (Nat.le_refl _) (by omega)
    have hrec1 := ih (made + 1) (delay * 2) (fun i h1 h2 => hfail i (by omega) (by omega))
    have hrec2 := ih (made + 1) delay (fun i h1 h2 => hfail i (by omega) (by omega))
    rcases hmade with hthrow | ⟨a, ha, hat⟩
    · have hg : w.extractGlb made = Except.error (PyErr.otherErr "x") ∨
          ∃ e2, w.extractGlb made = Except.error e2 := by
        simp only [glbOp] at hthrow
        rcases hge : w.extractGlb made with e2 | v
        · exact Or.inr ⟨e2, rfl⟩
        · rw [hge] at hthrow; simp at hthrow
      rcases hg with hg | ⟨e2, hg⟩
      · simp only [AppMain.glbRetryAux, hg]
        exact hrec1
      · simp only [AppMain.glbRetryAux, hg]
        exact hrec1
    · simp only [glbOp] at ha
      rcases hge : w.extractGlb made with e2 | v
      · simp only [AppMain.glbRetryAux, hge]
        exact hrec1
      · rw [hge] at ha
        simp only [OpOutcome.returns.injEq] at ha
        subst ha
        simp only [AppMain.glbRetryAux, hge, hat, Bool.false_eq_true, if_false]
        exact hrec2

/-! ### Claim theorems -/

/-- C3: for every max_attempts n >= 1, `retry_async` invokes an operation
that always fails (falsy result) exactly n times and returns null
(`none`); an operation whose first truthy success is its (k+1)-th
invocation, with k + 1 <= n, is invoked exactly k + 1 times and that
result is returned. -/
theorem c3_retry_invocation_counts {α : Type} (op : Nat → OpOutcome α) (truthy : α → Bool)
    (n d : Nat) (hn : 1 ≤ n) :
    ((∀ i, i < n → attemptFails op truthy i) →
      (retry_async op truthy n d).1 = none ∧ callCount (retry_async op truthy n d).2 = n) ∧
    (∀ k a, k < n → (∀ j, j < k → attemptFails op truthy j) →
      op k = OpOutcome.returns a → truthy a = true →
      (retry_async op truthy n d).1 = some a ∧ callCount (retry_async op truthy n d).2 = k + 1) := by
  constructor
  · intro hall
    have := retryAux_allFail op truthy n 0 d (fun i h1 h2 => hall i (by omega))
    exact ⟨this.1, this.2.1⟩
  · intro k a hk hfail hop hat
    exact retryAux_firstSuccess op truthy k n 0 d a hk
      (fun j hj => by simpa using hfail j hj) (by simpa using hop) hat

theorem c3_retry_invocation_counts_witness :
    ((retry_async (fun _ => OpOutcome.returns false) (fun b => b) 3 5).1 = none ∧
      callCount (retry_async (fun _ => OpOutcome.returns false) (fun b => b) 3 5).2 = 3) ∧
    ((retry_async (fun i => OpOutcome.returns (decide (i = 1))) (fun b => b) 3 5).1 = some true ∧
      callCount (retry_async (fun i => OpOutcome.returns (decide (i = 1))) (fun b => b) 3 5).2 = 2) :=
  ⟨(c3_retry_invocation_counts (fun _ => OpOutcome.returns false) (fun b => b) 3 5 (by omega)).1
      (fun i _ => Or.inr ⟨false, rfl, rfl⟩),
   (c3_retry_invocation_counts (fun i => OpOutcome.returns (decide (i = 1))) (fun b => b) 3 5
      (by omega)).2 1 true (by omega)
      (fun j hj => by
        interval_cases j
        · exact Or.inr ⟨false, rfl, rfl⟩)
      (by decide) rfl⟩

/-- C5: `retry_async` returns the first truthy result; if every attempt
fails it returns null (its result type is `Option α`, so no exception can
escape to the caller); and an attempt that throws is observationally
identical to one that returns a falsy result: two operations that agree on
where they fail and on their truthy values produce identical results and
identical traces. -/
theorem c5_retry_failure_modes {α : Type} (op : Nat → OpOutcome α) (truthy : α → Bool)
    (n d : Nat) :
    (∀ a, (retry_async op truthy n d).1 = some a →
      ∃ k, k < n ∧ op k = OpOutcome.returns a ∧ truthy a = true ∧
        ∀ j, j < k → attemptFails op truthy j) ∧
    ((∀ i, i < n → attemptFails op truthy i) → (retry_async op truthy n d).1 = none) ∧
    (∀ op2, (∀ i, i < n →
        (attemptFails op truthy i ↔ attemptFails op2 truthy i) ∧
        (∀ a, op i = OpOutcome.returns a → truthy a = true → op2 i = OpOutcome.returns a)) →
      retry_async op truthy n d = retry_async op2 truthy n d) := by
  refine ⟨?_, ?_, ?_⟩
  · intro a h
    rcases retryAux_some_first op truthy n 0 d a h with ⟨k, hk, hop, hat, hfail⟩
    exact ⟨k, hk, by simpa using hop, hat, fun j hj => by simpa using hfail j hj⟩
  · intro hall
    exact (retryAux_allFail op truthy n 0 d (fun i h1 h2 => hall i (by omega))).1
  · intro op2 hagree
    exact retryAux_congr op op2 truthy n 0 d (fun i h1 h2 => hagree i (by omega))

theorem c5_retry_failure_modes_witness :
    retry_async (fun _ => (OpOutcome.throws : OpOutcome Bool)) (fun b => b) 3 5
      = retry_async (fun _ => OpOutcome.returns false) (fun b => b) 3 5 :=
  (c5_retry_failure_modes (fun _ => (OpOutcome.throws : OpOutcome Bool)) (fun b => b) 3 5).2.2
    (fun _ => OpOutcome.returns false)
    (fun i _ =>
      ⟨Iff.intro (fun _ => Or.inr ⟨false, rfl, rfl⟩) (fun _ => Or.inl rfl),
       fun a h _ => OpOutcome.noConfusion h⟩)

/-- C4: the generic retry helper sleeps d, d*2, d*4, ... (multiplicative,
factor 2), while the video-polling loop sleeps 10, 15, 20, ... adding 5
per attempt with a cap of 80; for every initial delay d > 0 the two
sequences differ at an index beyond the first where both are defined (index
1: 2*d is even while the poll delay is 15). -/
theorem c4_backoff_shapes {α : Type} (op : Nat → OpOutcome α) (truthy : α → Bool)
    (p : Nat → Except PyErr JobResult) (n d : Nat) :
    ((∀ i, i < n → attemptFails op truthy i) →
      sleepDelays (retry_async op truthy n d).2 = (List.range n).map (helperDelaySeq d)) ∧
    ((∀ j, j ≤ 8 → ∃ r, p j = Except.ok r ∧ hasVideo r = false) →
      eventSleeps (pollForVideo p).2 = (List.range 8).map pollDelaySeq) ∧
    (∀ i, helperDelaySeq d i = d * 2 ^ i) ∧
    (∀ i, pollDelaySeq i = min (10 + 5 * i) 80) ∧
    (0 < d → helperDelaySeq d 1 ≠ pollDelaySeq 1) := by
  refine ⟨?_, ?_, helperDelaySeq_closed d, pollDelaySeq_closed, ?_⟩
  · intro hall
    exact (retryAux_allFail op truthy n 0 d (fun i h1 h2 => hall i (by omega))).2.2
  · intro h
    exact (pollForVideo_noVideo p h).2
  · intro _
    have h1 : helperDelaySeq d 1 = d * 2 := by rw [helperDelaySeq_closed]; ring
    have h2 : pollDelaySeq 1 = 15 := by rfl
    rw [h1, h2]
    omega

theorem c4_backoff_shapes_witness :
    sleepDelays (retry_async (fun _ => OpOutcome.returns false) (fun b => b) 3 5).2
        = (List.range 3).map (helperDelaySeq 5) ∧
    eventSleeps (pollForVideo (fun _ => Except.ok resNoVideo)).2
        = (List.range 8).map pollDelaySeq ∧
    helperDelaySeq 10 1 ≠ pollDelaySeq 1 :=
  ⟨(c4_backoff_shapes (fun _ => OpOutcome.returns false) (fun b => b)
      (fun _ => Except.ok resNoVideo) 3 5).1 (fun i _ => Or.inr ⟨false, rfl, rfl⟩),
   (c4_backoff_shapes (fun _ => (OpOutcome.returns false : OpOutcome Bool)) (fun b => b)
      (fun _ => Except.ok resNoVideo) 3 5).2.1 (fun j _ => ⟨resNoVideo, rfl, rfl⟩),
   (c4_backoff_shapes (fun _ => (OpOutcome.returns false : OpOutcome Bool)) (fun b => b)
      (fun _ => Except.ok resNoVideo) 3 10).2.2.2.2 (by omega)⟩

/-- C6: `fetch_or_copy_file` takes the download branch exactly when the
source starts with http:// or https:// and the copy branch otherwise; a
failing copy (e.g. a nonexistent local source) raises the copy error and a
transport error or non-2xx status raises the download error, and the two
errors are distinct. -/
theorem c6_materializer_dispatch (dl : String → DlOutcome) (cp : String → Bool)
    (src dest : String) :
    ((fetch_or_copy_file dl cp src dest).2 = FetchPath.download ↔ isUrlSource src = true) ∧
    ((fetch_or_copy_file dl cp src dest).2 = FetchPath.copy ↔ isUrlSource src = false) ∧
    (isUrlSource src = false → cp src = false →
      (fetch_or_copy_file dl cp src dest).1 = Except.error copyFailedErr) ∧
    (isUrlSource src = true → dl src ≠ DlOutcome.ok →
      (fetch_or_copy_file dl cp src dest).1 = Except.error downloadFailedErr) ∧
    copyFailedErr ≠ downloadFailedErr := by
  refine ⟨?_, ?_, ?_, ?_, by decide⟩
  · rcases hu : isUrlSource src with _ | _ <;> simp [fetch_or_copy_file, hu]
  · rcases hu : isUrlSource src with _ | _ <;> simp [fetch_or_copy_file, hu]
  · intro hu hcp
    simp [fetch_or_copy_file, hu, hcp]
  · intro hu hdl
    rcases hd : dl src with _ | _ | _
    · exact absurd hd hdl
    · simp [fetch_or_copy_file, hu, download_file, hd]
    · simp [fetch_or_copy_file, hu, download_file, hd]

theorem c6_materializer_dispatch_witness :
    (fetch_or_copy_file (fun _ => DlOutcome.ok) (fun _ => false) "missing.png" "d").1
      = Except.error copyFailedErr ∧
    (fetch_or_copy_file (fun _ => DlOutcome.transportErr) (fun _ => true) "http://h/x" "d").1
      = Except.error downloadFailedErr :=
  ⟨(c6_materializer_dispatch (fun _ => DlOutcome.ok) (fun _ => false) "missing.png" "d").2.2.1
      (by decide) rfl,
   (c6_materializer_dispatch (fun _ => DlOutcome.transportErr) (fun _ => true) "http://h/x" "d").2.2.2.1
      (by decide) (by decide)⟩

/-- C7: `wait_for_file` returns true at the first check at which the file
exists with non-zero size, having slept exactly once per earlier failed
check — in particular immediately, with no sleeps, for a file already
present; for a file that never appears it returns false (the function is
total, so no exception is raised) after its retries. -/
theorem c7_wait_for_file (check : Nat → Bool) (n d : Nat) :
    (∀ k, k < n → (∀ j, j < k → check j = false) → check k = true →
      (wait_for_file check n d).1 = true ∧ (wait_for_file check n d).2.length = k) ∧
    (check 0 = true → 1 ≤ n → wait_for_file check n d = (true, [])) ∧
    ((∀ i, check i = false) → (wait_for_file check n d).1 = false) := by
  refine ⟨?_, ?_, ?_⟩
  · intro k hk hfail hc
    exact waitAux_firstSuccess check k n 0 d hk
      (fun j hj => by simpa using hfail j hj) (by simpa using hc)
  · intro hc hn
    match n, hn with
    | m + 1, _ => simp [wait_for_file, waitAux, hc]
  · intro hall
    exact waitAux_allFalse check hall n 0 d

theorem c7_wait_for_file_witness :
    ((wait_for_file (fun i => decide (i = 2)) 3 2).1 = true ∧
      (wait_for_file (fun i => decide (i = 2)) 3 2).2.length = 2) ∧
    wait_for_file (fun _ => true) 3 2 = (true, []) ∧
    (wait_for_file (fun _ => false) 3 2).1 = false :=
  ⟨(c7_wait_for_file (fun i => decide (i = 2)) 3 2).1 2 (by omega)
      (fun j hj => by interval_cases j <;> rfl) (by decide),
   (c7_wait_for_file (fun _ => true) 3 2).2.1 rfl (by omega),
   (c7_wait_for_file (fun _ => false) 3 2).2.2 (fun i => rfl)⟩

/-! ### Shape lemmas for the pipeline -/

theorem filter_write_eq_nil (l : List Event) (h : ∀ e ∈ l, isWriteEv e = false) :
    l.filter isWriteEv = [] := by
  induction l with
  | nil => rfl
  | cons hd tl ih =>
    have hhd := h hd (by simp)
    rw [List.filter_cons, hhd]
    simp only [Bool.false_eq_true, if_false]
    exact ih (fun e he => h e (by simp [he]))

theorem process_ok_shape (w : World) (imagePath ts : String) (r : JobResult)
    (hp : (process_3d_job w imagePath ts).1 = Except.ok r) :
    (wait_for_file w.imageReady 3 2).1 = true ∧
    (∃ s, w.sessionRes = Except.ok s) ∧ (∃ s, w.lambdaRes = Except.ok s) ∧
    (pollForVideo w.poll).1 = Except.ok r ∧
    (process_3d_job w imagePath ts).2
      = ((wait_for_file w.imageReady 3 2).2).map Event.sleep
        ++ [Event.predict "/start_session", Event.predict "/lambda",
            Event.submitJob "/image_to_3d"]
        ++ (pollForVideo w.poll).2 := by
  rcases hw : (wait_for_file w.imageReady 3 2).1 with _ | _
  · simp [process_3d_job, hw] at hp
  · rcases hs : w.sessionRes with e | s
    · simp [process_3d_job, hw, hs] at hp
    · rcases hl : w.lambdaRes with e | l
      · simp [process_3d_job, hw, hl, hs] at hp
      · simp only [process_3d_job, hw, hs, hl] at hp ⊢
        simp only [Bool.true_eq_false, if_false] at hp ⊢
        exact ⟨by trivial, ⟨s, rfl⟩, ⟨l, rfl⟩, hp, by simp⟩

theorem extract_some_shape (w : World) (ts p : String)
    (hx : (extract_glb_async w ts).1 = some p) :
    p = glbFile ts ∧
    (∃ s, w.lambda1Res = Except.ok s) ∧ (∃ s, w.lambda2Res = Except.ok s) ∧
    (∃ s, w.lambda3Res = Except.ok s) ∧
    (∃ gp extra, (retry_async (glbOp w) glbTruthy 3 5).1 = some (some (gp, extra))) ∧
    (extract_glb_async w ts).2
      = [Event.predict "/lambda_1", Event.predict "/lambda_2", Event.predict "/lambda_3"]
        ++ ((retry_async (glbOp w) glbTruthy 3 5).2).map toPipelineEvent
        ++ [Event.write (glbFile ts), Event.predict "/extract_gaussian",
            Event.write (gaussianFile ts)] := by
  rcases h1 : w.lambda1Res with e | s1
  · simp [extract_glb_async, h1] at hx
  · rcases h2 : w.lambda2Res with e | s2
    · simp [extract_glb_async, h1, h2] at hx
    · rcases h3 : w.lambda3Res with e | s3
      · simp [extract_glb_async, h1, h2, h3] at hx
      · rcases hr : (retry_async (glbOp w) glbTruthy 3 5).1 with _ | v
        · simp [extract_glb_async, h1, h2, h3, hr] at hx
        · rcases v with _ | ⟨gp, extra⟩
          · simp [extract_glb_async, h1, h2, h3, hr] at hx
          · rcases hf : (fetch_or_copy_file w.download w.copyOk gp (glbFile ts)).1 with e | u
            · simp [extract_glb_async, h1, h2, h3, hr, hf] at hx
            · rcases hg : w.extractGaussian with e | gv
              · simp [extract_glb_async, h1, h2, h3, hr, hf, hg] at hx
              · rcases gv with _ | ⟨gaussP, ge⟩
                · simp [extract_glb_async, h1, h2, h3, hr, hf, hg] at hx
                · rcases hf2 : (fetch_or_copy_file w.download w.copyOk gaussP (gaussianFile ts)).1
                    with e | u2
                  · simp [extract_glb_async, h1, h2, h3, hr, hf, hg, hf2] at hx
                  · simp only [extract_glb_async, h1, h2, h3, hr, hf, hg, hf2] at hx ⊢
                    simp only [Option.some.injEq] at hx
                    exact ⟨hx.symm, ⟨s1, rfl⟩, ⟨s2, rfl⟩, ⟨s3, rfl⟩, ⟨gp, extra, rfl⟩, by simp⟩

/-- C1: in every successful model-generation run the remote operations
happen exactly in the order start_session, lambda, image_to_3d (one submit,
then at least one poll), lambda_1, lambda_2, lambda_3, extract_glb (at
least one attempt), extract_gaussian, and the orchestrator writes exactly
the two local files TIMESTAMP_3d_model.glb and TIMESTAMP_gaussian.glb
(under the data directory), in that order. -/
theorem c1_pipeline_order (w : World) (ts glbPath : String)
    (hgen : generate_model w ts = Except.ok glbPath) :
    ∃ waitEvs pollEvs glbEvs,
      (∀ e ∈ waitEvs, ∃ d2, e = Event.sleep d2) ∧
      (∀ e ∈ pollEvs, (∃ i, e = Event.pollJob i) ∨ (∃ d2, e = Event.sleep d2)) ∧
      Event.pollJob 0 ∈ pollEvs ∧
      (∀ e ∈ glbEvs, e = Event.predict "/extract_glb" ∨ ∃ d2, e = Event.sleep d2) ∧
      Event.predict "/extract_glb" ∈ glbEvs ∧
      (process_3d_job w (uploadedFile ts) ts).2 ++ (extract_glb_async w ts).2
        = waitEvs
          ++ [Event.predict "/start_session", Event.predict "/lambda",
              Event.submitJob "/image_to_3d"]
          ++ pollEvs
          ++ [Event.predict "/lambda_1", Event.predict "/lambda_2", Event.predict "/lambda_3"]
          ++ glbEvs
          ++ [Event.write (glbFile ts), Event.predict "/extract_gaussian",
              Event.write (gaussianFile ts)] ∧
      glbPath = glbFile ts ∧
      ((process_3d_job w (uploadedFile ts) ts).2 ++ (extract_glb_async w ts).2).filter isWriteEv
        = [Event.write (glbFile ts), Event.write (gaussianFile ts)] := by
  rcases hsv : w.saveUploadOk with _ | _
  · simp [generate_model, hsv] at hgen
  · rcases hp : (process_3d_job w (uploadedFile ts) ts).1 with e | r
    · simp [generate_model, hsv, hp] at hgen
    · rcases hx : (extract_glb_async w ts).1 with _ | p
      · simp [generate_model, hsv, hp, hx] at hgen
      · have hpx : p = glbPath := by
          simp only [generate_model, hsv, hp, hx] at hgen
          simp only [Bool.true_eq_false, if_false] at hgen
          exact (Except.ok.injEq _ _).mp hgen
        rcases process_ok_shape w (uploadedFile ts) ts r hp with ⟨_, _, _, _, hptrace⟩
        rcases extract_some_shape w ts p hx with ⟨hpglb, _, _, _, ⟨gp, extra, hr⟩, hxtrace⟩
        refine ⟨((wait_for_file w.imageReady 3 2).2).map Event.sleep,
          (pollForVideo w.poll).2,
          ((retry_async (glbOp w) glbTruthy 3 5).2).map toPipelineEvent, ?_, ?_, ?_, ?_, ?_, ?_, ?_, ?_⟩
        · intro e he
          rcases List.mem_map.mp he with ⟨d2, _, hd2⟩
          exact ⟨d2, hd2.symm⟩
        · exact (pollForVideo_events_shape w.poll).1
        · exact (pollForVideo_events_shape w.poll).2
        · intro e he
          rcases List.mem_map.mp he with ⟨re, hre, hmap⟩
          rcases retryAux_events_shape (glbOp w) glbTruthy 3 0 5 re hre with ⟨i, hi⟩ | ⟨d2, hd2⟩
          · subst hi
            exact Or.inl hmap.symm
          · subst hd2
            exact Or.inr ⟨d2, hmap.symm⟩
        · have hcall := retryAux_some_hasCall (glbOp w) glbTruthy 3 0 5 (some (gp, extra)) hr
          have := List.mem_map_of_mem toPipelineEvent hcall
          simpa [toPipelineEvent] using this
        · rw [hptrace, hxtrace]
          simp [List.append_assoc]
        · rw [← hpx, hpglb]
        · rw [hptrace, hxtrace]
          have hnil1 : (((wait_for_file w.imageReady 3 2).2).map Event.sleep).filter isWriteEv
              = [] := by
            refine filter_write_eq_nil _ ?_
            intro e he
            rcases List.mem_map.mp he with ⟨d2, _, hd2⟩
            rw [← hd2]
            rfl
          have hnil2 : ((pollForVideo w.poll).2).filter isWriteEv = [] := by
            refine filter_write_eq_nil _ ?_
            intro e he
            rcases (pollForVideo_events_shape w.poll).1 e he with ⟨i, hi⟩ | ⟨d2, hd2⟩
            · rw [hi]; rfl
            · rw [hd2]; rfl
          have hnil3 : (((retry_async (glbOp w) glbTruthy 3 5).2).map toPipelineEvent).filter
              isWriteEv = [] := by
            refine filter_write_eq_nil _ ?_
            intro e he
            rcases List.mem_map.mp he with ⟨re, hre, hmap⟩
            rcases retryAux_events_shape (glbOp w) glbTruthy 3 0 5 re hre with ⟨i, hi⟩ | ⟨d2, hd2⟩
            · rw [← hmap, hi]; rfl
            · rw [← hmap, hd2]; rfl
          simp [List.filter_append, hnil1, hnil2, hnil3, List.filter_cons, isWriteEv]

theorem c1_pipeline_order_witness :
    ∃ waitEvs pollEvs glbEvs,
      (∀ e ∈ waitEvs, ∃ d2, e = Event.sleep d2) ∧
      (∀ e ∈ pollEvs, (∃ i, e = Event.pollJob i) ∨ (∃ d2, e = Event.sleep d2)) ∧
      Event.pollJob 0 ∈ pollEvs ∧
      (∀ e ∈ glbEvs, e = Event.predict "/extract_glb" ∨ ∃ d2, e = Event.sleep d2) ∧
      Event.predict "/extract_glb" ∈ glbEvs ∧
      (process_3d_job wOk (uploadedFile "t") "t").2 ++ (extract_glb_async wOk "t").2
        = waitEvs
          ++ [Event.predict "/start_session", Event.predict "/lambda",
              Event.submitJob "/image_to_3d"]
          ++ pollEvs
          ++ [Event.predict "/lambda_1", Event.predict "/lambda_2", Event.predict "/lambda_3"]
          ++ glbEvs
          ++ [Event.write (glbFile "t"), Event.predict "/extract_gaussian",
              Event.write (gaussianFile "t")] ∧
      glbFile "t" = glbFile "t" ∧
      ((process_3d_job wOk (uploadedFile "t") "t").2 ++ (extract_glb_async wOk "t").2).filter
          isWriteEv
        = [Event.write (glbFile "t"), Event.write (gaussianFile "t")] :=
  c1_pipeline_order wOk "t" (glbFile "t") rfl

/-- C9: in the polling loop only a video-less (or falsy) result triggers a
retry; an exception raised by jobHandle.result — on the initial call
(k = 0) or on any later poll (k >= 1) — propagates immediately: the phase
ends with exactly that error after exactly k + 1 polls, and its outcome
does not depend on how the job would have answered any later poll. -/
theorem c9_poll_exception_propagates (p : Nat → Except PyErr JobResult) (k : Nat) (e : PyErr)
    (hk : k ≤ 8)
    (hfail : ∀ j, j < k → ∃ r, p j = Except.ok r ∧ hasVideo r = false)
    (herr : p k = Except.error e) :
    (pollForVideo p).1 = Except.error e ∧
    pollCallCount (pollForVideo p).2 = k + 1 ∧
    (∀ p2, (∀ j, j ≤ k → p2 j = p j) → pollForVideo p2 = pollForVideo p) := by
  have h1 := pollForVideo_err p k e hk hfail herr
  refine ⟨by rw [h1], by rw [h1]; exact pollErrTrace_count k, ?_⟩
  intro p2 hag
  have hfail2 : ∀ j, j < k → ∃ r, p2 j = Except.ok r ∧ hasVideo r = false := by
    intro j hj
    rcases hfail j hj with ⟨r, hr, hv⟩
    exact ⟨r, by rw [hag j (by omega)]; exact hr, hv⟩
  have herr2 : p2 k = Except.error e := by rw [hag k (Nat.le_refl k)]; exact herr
  rw [pollForVideo_err p2 k e hk hfail2 herr2, h1]

theorem c9_poll_exception_propagates_witness :
    (pollForVideo pollTimesOutAt2).1 = Except.error PyErr.timeoutErr ∧
    pollCallCount (pollForVideo pollTimesOutAt2).2 = 3 ∧
    (∀ p2, (∀ j, j ≤ 2 → p2 j = pollTimesOutAt2 j) →
      pollForVideo p2 = pollForVideo pollTimesOutAt2) :=
  c9_poll_exception_propagates pollTimesOutAt2 2 PyErr.timeoutErr (by omega)
    (fun j hj => by
      interval_cases j
      · exact ⟨resNoVideo, rfl, rfl⟩
      · exact ⟨resNoVideo, rfl, rfl⟩)
    rfl

/-- C10: in `extract_glb_async` the GLB file is materialized (written)
strictly before `/extract_gaussian` is invoked; when gaussian extraction or
its materialization then fails, the function returns `none`, the endpoint
(`generate_model` of the services tree) reports failure, and the trace
still contains the GLB write — nothing undoes the prior file-system
effect (the embedding is append-only because the source has no deletion
on any failure path). -/
theorem c10_glb_write_persists (w : World) (ts glbP extra : String)
    (h1 : ∃ s, w.lambda1Res = Except.ok s)
    (h2 : ∃ s, w.lambda2Res = Except.ok s)
    (h3 : ∃ s, w.lambda3Res = Except.ok s)
    (hr : (retry_async (glbOp w) glbTruthy 3 5).1 = some (some (glbP, extra)))
    (hfetch : (fetch_or_copy_file w.download w.copyOk glbP (glbFile ts)).1 = Except.ok ())
    (hgauss : (∃ e, w.extractGaussian = Except.error e) ∨ w.extractGaussian = Except.ok none ∨
      ∃ gp ge, w.extractGaussian = Except.ok (some (gp, ge)) ∧
        (fetch_or_copy_file w.download w.copyOk gp (gaussianFile ts)).1 ≠ Except.ok ()) :
    (extract_glb_async w ts).1 = none ∧
    (∃ pre, (extract_glb_async w ts).2
        = pre ++ [Event.write (glbFile ts), Event.predict "/extract_gaussian"]) ∧
    Event.write (glbFile ts) ∈ (extract_glb_async w ts).2 ∧
    generate_model w ts = Except.error genericModelErr := by
  rcases h1 with ⟨s1, h1⟩
  rcases h2 with ⟨s2, h2⟩
  rcases h3 with ⟨s3, h3⟩
  have hshape : (extract_glb_async w ts).1 = none ∧
      (extract_glb_async w ts).2
        = ([Event.predict "/lambda_1", Event.predict "/lambda_2", Event.predict "/lambda_3"]
            ++ ((retry_async (glbOp w) glbTruthy 3 5).2).map toPipelineEvent)
          ++ [Event.write (glbFile ts), Event.predict "/extract_gaussian"] := by
    rcases hgauss with ⟨e, hg⟩ | hg | ⟨gp, ge, hg, hne⟩
    · simp only [extract_glb_async, h1, h2, h3, hr, hfetch, hg]
      exact ⟨by trivial, by simp⟩
    · simp only [extract_glb_async, h1, h2, h3, hr, hfetch, hg]
      exact ⟨by trivial, by simp⟩
    · rcases hf2 : (fetch_or_copy_file w.download w.copyOk gp (gaussianFile ts)).1 with e2 | u2
      · simp only [extract_glb_async, h1, h2, h3, hr, hfetch, hg, hf2]
        exact ⟨by trivial, by simp⟩
      · cases u2
        exact absurd hf2 hne
  refine ⟨hshape.1, ⟨_, hshape.2⟩, ?_, ?_⟩
  · rw [hshape.2]
    simp
  · rcases hsv : w.saveUploadOk with _ | _
    · simp [generate_model, hsv]
    · rcases hp : (process_3d_job w (uploadedFile ts) ts).1 with e | r
      · simp [generate_model, hsv, hp]
      · simp [generate_model, hsv, hp, hshape.1]

theorem c10_glb_write_persists_witness :
    (extract_glb_async wGaussFail "t").1 = none ∧
    (∃ pre, (extract_glb_async wGaussFail "t").2
        = pre ++ [Event.write (glbFile "t"), Event.predict "/extract_gaussian"]) ∧
    Event.write (glbFile "t") ∈ (extract_glb_async wGaussFail "t").2 ∧
    generate_model wGaussFail "t" = Except.error genericModelErr :=
  c10_glb_write_persists wGaussFail "t" "tmp/glb_src.glb" "info"
    ⟨"l1", rfl⟩ ⟨"l2", rfl⟩ ⟨"l3", rfl⟩ rfl rfl (Or.inr (Or.inl rfl))

/-- C2 counterexample: in the services implementation
(`model_generator.generate_model`), a run whose polled result never has a
video (internally the fatal `noVideoErr`) and a run whose GLB extraction
returns no result after its retries (internally the `None` soft failure)
surface to the HTTP caller as the *same* error — the bare
`except Exception` collapses both into `genericModelErr` — so the two
failures are not distinguishable there, contrary to the claim. -/
theorem c2_counterexample_indistinguishable :
    generate_model wNoVideo "t" = generate_model wNoGlb "t" ∧
    generate_model wNoVideo "t" = Except.error genericModelErr ∧
    (pollForVideo wNoVideo.poll).1 = Except.error noVideoErr ∧
    (extract_glb_async wNoGlb "t").1 = none :=
  ⟨rfl, rfl, rfl, rfl⟩

/-- C2 amended: in the `app/main.py` endpoint the two failures are
distinguishable — exhausted polling surfaces as HTTP 500 with detail
"3D conversion failed: No video returned." (re-raised unchanged), while
exhausted GLB extraction surfaces as HTTP 500 with detail
"GLB extraction failed." — but in the services implementation
(`model_generator.generate_model`) both runs surface as the identical
`genericModelErr`, so there the caller cannot distinguish them. -/
theorem c2_amended_error_distinguishability (w1 w2 : World) (ts1 ts2 : String)
    (h1save : w1.saveUploadOk = true)
    (h1img : w1.imageReady 0 = true)
    (h1s : ∃ s, w1.sessionRes = Except.ok s)
    (h1l : ∃ s, w1.lambdaRes = Except.ok s)
    (h1poll : ∀ j, j ≤ 8 → ∃ r, w1.poll j = Except.ok r ∧ hasVideo r = false)
    (h2save : w2.saveUploadOk = true)
    (h2img : w2.imageReady 0 = true)
    (h2s : ∃ s, w2.sessionRes = Except.ok s)
    (h2l : ∃ s, w2.lambdaRes = Except.ok s)
    (h2poll : ∃ r, w2.poll 0 = Except.ok r ∧ hasVideo r = true)
    (h2l1 : ∃ s, w2.lambda1Res = Except.ok s)
    (h2l2 : ∃ s, w2.lambda2Res = Except.ok s)
    (h2l3 : ∃ s, w2.lambda3Res = Except.ok s)
    (h2glb : ∀ i, i < 3 → attemptFails (glbOp w2) glbTruthy i) :
    AppMain.generate_model w1 ts1 = Except.error noVideoErr ∧
    AppMain.generate_model w2 ts2
      = Except.error (PyErr.httpException 500 "GLB extraction failed.") ∧
    noVideoErr ≠ PyErr.httpException 500 "GLB extraction failed." ∧
    generate_model w1 ts1 = Except.error genericModelErr ∧
    generate_model w2 ts2 = Except.error genericModelErr := by
  rcases h1s with ⟨s1, h1s⟩
  rcases h1l with ⟨l1, h1l⟩
  rcases h2s with ⟨s2, h2s⟩
  rcases h2l with ⟨l2, h2l⟩
  rcases h2poll with ⟨r2, hp20, hv2⟩
  rcases h2l1 with ⟨a1, h2l1⟩
  rcases h2l2 with ⟨a2, h2l2⟩
  rcases h2l3 with ⟨a3, h2l3⟩
  have hw1 : (wait_for_file w1.imageReady 3 2).1 = true :=
    (waitAux_firstSuccess w1.imageReady 0 3 0 2 (by omega)
      (fun j hj => absurd hj (Nat.not_lt_zero j)) (by simpa using h1img)).1
  have hw2 : (wait_for_file w2.imageReady 3 2).1 = true :=
    (waitAux_firstSuccess w2.imageReady 0 3 0 2 (by omega)
      (fun j hj => absurd hj (Nat.not_lt_zero j)) (by simpa using h2img)).1
  have hpoll1 := (pollForVideo_noVideo w1.poll h1poll).1
  have hpoll2 : (pollForVideo w2.poll).1 = Except.ok r2 := by
    simp only [pollForVideo, hp20]
    rw [pollLoopAux_succ_video 1 7 10 hv2]
  have hproc1 : AppMain.process_3d_job w1 (uploadedFile ts1) = Except.error noVideoErr := by
    simp [AppMain.process_3d_job, hw1, h1s, h1l, hpoll1]
  have hproc2 : AppMain.process_3d_job w2 (uploadedFile ts2) = Except.ok r2 := by
    simp [AppMain.process_3d_job, hw2, h2s, h2l, hpoll2]
  have hretry2 : AppMain.glbRetryAux w2 0 3 5 = none :=
    appGlbRetryAux_allFail w2 3 0 5 (fun i hi1 hi2 => h2glb i (by omega))
  have hex2 : AppMain.extract_glb_async w2 ts2 = none := by
    simp [AppMain.extract_glb_async, h2l1, h2l2, h2l3, hretry2]
  have hretry2s : (retry_async (glbOp w2) glbTruthy 3 5).1 = none :=
    (retryAux_allFail (glbOp w2) glbTruthy 3 0 5 (fun i hi1 hi2 => h2glb i (by omega))).1
  have hex2s : (extract_glb_async w2 ts2).1 = none := by
    simp [extract_glb_async, h2l1, h2l2, h2l3, hretry2s]
  have hproc1s : (process_3d_job w1 (uploadedFile ts1) ts1).1 = Except.error noVideoErr := by
    simp [process_3d_job, hw1, h1s, h1l, hpoll1]
  have hproc2s : (process_3d_job w2 (uploadedFile ts2) ts2).1 = Except.ok r2 := by
    simp [process_3d_job, hw2, h2s, h2l, hpoll2]
  refine ⟨?_, ?_, by decide, ?_, ?_⟩
  · simp [AppMain.generate_model, h1save, hproc1, noVideoErr]
  · simp [AppMain.generate_model, h2save, hproc2, hex2]
  · simp [generate_model, h1save, hproc1s]
  · simp [generate_model, h2save, hproc2s, hex2s]

theorem c2_amended_error_distinguishability_witness :
    AppMain.generate_model wNoVideo "t" = Except.error noVideoErr ∧
    AppMain.generate_model wNoGlb "t"
      = Except.error (PyErr.httpException 500 "GLB extraction failed.") ∧
    noVideoErr ≠ PyErr.httpException 500 "GLB extraction failed." ∧
    generate_model wNoVideo "t" = Except.error genericModelErr ∧
    generate_model wNoGlb "t" = Except.error genericModelErr :=
  c2_amended_error_distinguishability wNoVideo wNoGlb "t" "t"
    rfl rfl ⟨"session", rfl⟩ ⟨"lambda", rfl⟩
    (fun j hj => ⟨resNoVideo, rfl, rfl⟩)
    rfl rfl ⟨"session", rfl⟩ ⟨"lambda", rfl⟩
    ⟨resVideo, rfl, rfl⟩ ⟨"l1", rfl⟩ ⟨"l2", rfl⟩ ⟨"l3", rfl⟩
    (fun i hi => Or.inr ⟨none, rfl, rfl⟩)

/-- Every trace of `generate_sketch` starts with the flux-image call on the
style-extended prompt, whatever happens afterwards. -/
theorem generate_sketch_flux_head (w : SketchWorld) (ts prompt : String)
    (style : Option String) :
    (generate_sketch w ts prompt style).2.head?
      = some (SketchEvent.fluxCall (updatedPrompt prompt style)) := by
  cases h1 : w.flux (updatedPrompt prompt style) with
  | error e1 => simp [generate_sketch, h1]
  | ok img =>
    cases h2 : (fetch_or_copy_file w.download w.copyOk img (fluxImageFile ts)).1 with
    | error e2 => simp [generate_sketch, h1, h2]
    | ok u =>
      cases h3 : w.bg (fluxImageFile ts) with
      | error e3 => simp [generate_sketch, h1, h2, h3]
      | ok bg0 =>
        cases bg0 with
        | pyStr s =>
          cases h4 : (fetch_or_copy_file w.download w.copyOk s (fluxImageBgFile ts)).1 with
          | error e4 => simp [generate_sketch, h1, h2, h3, h4]
          | ok u2 => simp [generate_sketch, h1, h2, h3, h4]
        | pyList xs =>
          cases xs with
          | nil => simp [generate_sketch, h1, h2, h3]
          | cons hd tl =>
            cases hd with
            | pyStr s =>
              cases h4 : (fetch_or_copy_file w.download w.copyOk s (fluxImageBgFile ts)).1 with
              | error e4 => simp [generate_sketch, h1, h2, h3, h4]
              | ok u2 => simp [generate_sketch, h1, h2, h3, h4]
            | pyList ys => simp [generate_sketch, h1, h2, h3]
            | pyOther => simp [generate_sketch, h1, h2, h3]
        | pyOther => simp [generate_sketch, h1, h2, h3]

/-- C8: with prompt "A castle" and style "Toon", the sketch orchestrator
invokes image generation with the prompt extended to
"A castle. Bold outlines, cel-shaded.", then invokes background removal on
the generated local image, and returns a path ending in
_flux_image_bg.png; a style outside the known mapping is accepted but
ignored, the original prompt being used unmodified. -/
theorem c8_sketch_flow (w : SketchWorld) (ts : String) :
    (∀ img, w.flux "A castle. Bold outlines, cel-shaded." = Except.ok img →
      (fetch_or_copy_file w.download w.copyOk img (fluxImageFile ts)).1 = Except.ok () →
      ∀ s, w.bg (fluxImageFile ts) = Except.ok (PyVal.pyStr s) →
      (fetch_or_copy_file w.download w.copyOk s (fluxImageBgFile ts)).1 = Except.ok () →
      generate_sketch w ts "A castle" (some "Toon")
        = (Except.ok (fluxImageBgFile ts),
           [SketchEvent.fluxCall "A castle. Bold outlines, cel-shaded.",
            SketchEvent.write (fluxImageFile ts),
            SketchEvent.bgCall (fluxImageFile ts),
            SketchEvent.write (fluxImageBgFile ts)]) ∧
      (∃ pre, fluxImageBgFile ts = pre ++ "_flux_image_bg.png")) ∧
    (∀ prompt style, (generate_sketch w ts prompt style).2.head?
        = some (SketchEvent.fluxCall (updatedPrompt prompt style))) ∧
    (∀ prompt st, STYLE_DESCRIPTIONS st = none → updatedPrompt prompt (some st) = prompt) ∧
    updatedPrompt "A castle" (some "Toon") = "A castle. Bold outlines, cel-shaded." := by
  have hup : updatedPrompt "A castle" (some "Toon")
      = "A castle. Bold outlines, cel-shaded." := by decide
  refine ⟨?_, generate_sketch_flux_head w ts, ?_, hup⟩
  · intro img hflux hfetch1 s hbg hfetch2
    constructor
    · simp [generate_sketch, hup, hflux, hfetch1, hbg, hfetch2]
    · exact ⟨"data/" ++ ts, rfl⟩
  · intro prompt st hst
    simp [updatedPrompt, hst]

theorem c8_sketch_flow_witness :
    (generate_sketch swOk "t" "A castle" (some "Toon")
      = (Except.ok (fluxImageBgFile "t"),
         [SketchEvent.fluxCall "A castle. Bold outlines, cel-shaded.",
          SketchEvent.write (fluxImageFile "t"),
          SketchEvent.bgCall (fluxImageFile "t"),
          SketchEvent.write (fluxImageBgFile "t")]) ∧
      (∃ pre, fluxImageBgFile "t" = pre ++ "_flux_image_bg.png")) ∧
    updatedPrompt "A castle" (some "Cubist") = "A castle" :=
  ⟨(c8_sketch_flow swOk "t").1 "https://cdn/flux.png" rfl rfl "tmp/bg_out.png" rfl rfl,
   (c8_sketch_flow swOk "t").2.2.1 "A castle" "Cubist" rfl⟩
